import Mathlib

/-!
Verification of the per-monitor taskbar state engine of TranslucentTB
(`src/TranslucentTB/main.cpp`) against its natural-language specification.

The development is a shallow embedding: the C++ data (the `swca` accent
enumeration, the taskbar registry `run.taskbars`, the function-local static
caches of `SetWindowBlur`, `TogglePeek` and `IsWindowBlacklisted`) become Lean
structures, and the C++ functions become Lean functions over those structures.
Machine integers are modelled as `Nat` with explicit masking; 32-bit colors
carry an explicit `< 2 ^ 32` bound where it matters.  The throwing lookup
`std::unordered_map::at` is modelled with `Option`, propagated through the
classification pass.  Configuration values (`Config::…`) and the character
lower-casing routine (`Util::ToLower`), whose definitions live in headers that
are not part of this tree, are parameters of the embedding.
-/

namespace TTB

/-- The `swca::ACCENT` enumeration as used by `main.cpp`
(`swcadata.hpp` is external; only the tags matter here). -/
inductive ACCENT
  | normal
  | enableGradient
  | enableTransparentGradient
  | enableBlurbehind
  | enableFluent
  deriving DecidableEq, Repr

/-- The `TASKBARSTATE` enumeration of `main.cpp`. -/
inductive TASKBARSTATE
  | Normal
  | WindowMaximised
  | StartMenuOpen
  deriving DecidableEq, Repr

/-- The ARGB→ABGR byte swap computed for `swca::ACCENTPOLICY::nColor` in
`SetWindowBlur` (main.cpp line 86):
`(color & 0xFF00FF00) + ((color & 0x00FF0000) >> 16) + ((color & 0x000000FF) << 16)`. -/
def swcaColor (color : Nat) : Nat :=
  (color &&& 0xFF00FF00) + ((color &&& 0x00FF0000) >>> 16) + ((color &&& 0x000000FF) <<< 16)

/-- The color actually placed in the submitted accent policy: the byte swap,
followed by the Fluent zero-opacity promotion of main.cpp lines 101–105:
`policy.nColor = (0x01 << 24) + (policy.nColor & 0x00FFFFFF)` when the accent
is `ACCENT_ENABLE_FLUENT` and `policy.nColor >> 24 == 0x00`. -/
def accentPolicyColor (k : ACCENT) (color : Nat) : Nat :=
  if k = ACCENT.enableFluent ∧ swcaColor color >>> 24 = 0 then
    (0x01 <<< 24) + (swcaColor color &&& 0x00FFFFFF)
  else
    swcaColor color

/-- The R/B swap exactly as the specification words it, with disjoint masked
fields combined by `|||` instead of `+` (spec §4.1, "Color byte order"). -/
def swcaColorSpec (color : Nat) : Nat :=
  (color &&& 0xFF00FF00) ||| ((color &&& 0x00FF0000) >>> 16) ||| ((color &&& 0x000000FF) <<< 16)

section BitLemmas

theorem and_mask_shift (x m k : Nat) : x &&& (m <<< k) = ((x >>> k) &&& m) <<< k := by
  apply Nat.eq_of_testBit_eq
  intro i
  rcases Nat.lt_or_ge i k with h | h
  · simp [Nat.testBit_land, Nat.testBit_shiftLeft, Nat.not_le.mpr h]
  · have hki : k + (i - k) = i := by omega
    simp [Nat.testBit_land, Nat.testBit_shiftLeft, Nat.testBit_shiftRight, h, hki]

theorem and_lor_distrib (x a b : Nat) : x &&& (a ||| b) = (x &&& a) ||| (x &&& b) := by
  apply Nat.eq_of_testBit_eq
  intro i
  simp [Nat.testBit_land, Nat.testBit_lor, Bool.and_or_distrib_left]

theorem lor_shiftLeft_distrib (a b k : Nat) : (a ||| b) <<< k = (a <<< k) ||| (b <<< k) := by
  apply Nat.eq_of_testBit_eq
  intro i
  simp [Nat.testBit_lor, Nat.testBit_shiftLeft, Bool.and_or_distrib_left]

theorem lor_small_shiftLeft (a b k : Nat) (h : a < 2 ^ k) : a ||| (b <<< k) = a + b * 2 ^ k := by
  have hle : ∀ i, k ≤ i → a.testBit i = false := by
    intro i hi
    exact Nat.testBit_lt_two_pow (Nat.lt_of_lt_of_le h (Nat.pow_le_pow_right (by omega) hi))
  have hmod : (a ||| b <<< k) % 2 ^ k = a := by
    apply Nat.eq_of_testBit_eq
    intro i
    rcases Nat.lt_or_ge i k with hik | hik
    · simp [Nat.testBit_mod_two_pow, Nat.testBit_lor, Nat.testBit_shiftLeft, hik, Nat.not_le.mpr hik]
    · simp [Nat.testBit_mod_two_pow, Nat.not_lt.mpr hik, hle i hik]
  have hdiv : (a ||| b <<< k) / 2 ^ k = b := by
    rw [← Nat.shiftRight_eq_div_pow]
    apply Nat.eq_of_testBit_eq
    intro i
    simp [Nat.testBit_shiftRight, Nat.testBit_lor, Nat.testBit_shiftLeft, hle (k + i) (by omega),
      show k ≤ k + i by omega]
  have h2 := Nat.div_add_mod (a ||| b <<< k) (2 ^ k)
  rw [hdiv, hmod] at h2
  rw [← h2]
  ring

theorem and_255 (x : Nat) : x &&& 255 = x % 256 := by
  have h := Nat.and_pow_two_sub_one_eq_mod x 8
  norm_num at h
  exact h

theorem and_ffffff (x : Nat) : x &&& 0xFFFFFF = x % 16777216 := by
  have h := Nat.and_pow_two_sub_one_eq_mod x 24
  norm_num at h
  exact h

theorem and_ff0000 (x : Nat) : x &&& 0xFF0000 = x / 65536 % 256 * 65536 := by
  have hc : (0xFF0000 : Nat) = 255 <<< 16 := by decide
  rw [hc, and_mask_shift, and_255, Nat.shiftLeft_eq, Nat.shiftRight_eq_div_pow]

theorem and_ff00ff00_or (x : Nat) :
    x &&& 0xFF00FF00 = (x / 256 % 256) <<< 8 ||| (x / 16777216 % 256) <<< 24 := by
  have hc : (0xFF00FF00 : Nat) = (255 ||| 255 <<< 16) <<< 8 := by decide
  rw [hc, and_mask_shift, and_lor_distrib, and_255, and_mask_shift, and_255,
    lor_shiftLeft_distrib]
  simp only [Nat.shiftLeft_eq, Nat.shiftRight_eq_div_pow, Nat.div_div_eq_div_mul]
  norm_num
  rw [Nat.mul_assoc]

theorem and_ff00ff00 (x : Nat) :
    x &&& 0xFF00FF00 = x / 256 % 256 * 256 + x / 16777216 % 256 * 16777216 := by
  rw [and_ff00ff00_or]
  have hlt : (x / 256 % 256) <<< 8 < 2 ^ 24 := by
    rw [Nat.shiftLeft_eq]
    have h := Nat.mod_lt (x / 256) (show 0 < 256 by norm_num)
    norm_num
    omega
  rw [lor_small_shiftLeft _ _ 24 hlt, Nat.shiftLeft_eq]
  norm_num

theorem swcaColor_eq_bytes (c : Nat) :
    swcaColor c = c / 256 % 256 * 256 + c / 16777216 % 256 * 16777216
      + c / 65536 % 256 + c % 256 * 65536 := by
  unfold swcaColor
  rw [and_ff00ff00, and_ff0000, show (0x000000FF : Nat) = 255 from rfl, and_255,
    Nat.shiftLeft_eq, Nat.shiftRight_eq_div_pow]
  norm_num

theorem four_bytes_lor (b0 b1 b2 b3 : Nat) (h0 : b0 < 256) (h1 : b1 < 256) (h2 : b2 < 256) :
    ((b1 <<< 8 ||| b3 <<< 24) ||| b2) ||| b0 <<< 16
      = b1 * 256 + b3 * 16777216 + b2 + b0 * 65536 := by
  rw [Nat.lor_comm (b1 <<< 8 ||| b3 <<< 24) b2, ← Nat.lor_assoc, Nat.lor_assoc (b2 ||| b1 <<< 8),
    Nat.lor_comm (b3 <<< 24) (b0 <<< 16), ← Nat.lor_assoc]
  have e1 : b2 ||| b1 <<< 8 = b2 + b1 * 256 := by
    have h := lor_small_shiftLeft b2 b1 8 (Nat.lt_of_lt_of_le h2 (by norm_num))
    norm_num at h
    exact h
  rw [e1]
  have e2 : b2 + b1 * 256 ||| b0 <<< 16 = b2 + b1 * 256 + b0 * 65536 := by
    have h := lor_small_shiftLeft (b2 + b1 * 256) b0 16
      (Nat.lt_of_lt_of_le (show b2 + b1 * 256 < 65536 by omega) (by norm_num))
    norm_num at h
    exact h
  rw [e2]
  have e3 : b2 + b1 * 256 + b0 * 65536 ||| b3 <<< 24
      = b2 + b1 * 256 + b0 * 65536 + b3 * 16777216 := by
    have h := lor_small_shiftLeft (b2 + b1 * 256 + b0 * 65536) b3 24
      (Nat.lt_of_lt_of_le (show b2 + b1 * 256 + b0 * 65536 < 16777216 by omega) (by norm_num))
    norm_num at h
    exact h
  rw [e3]
  ring

theorem swcaColor_eq_spec (c : Nat) : swcaColor c = swcaColorSpec c := by
  unfold swcaColorSpec
  rw [and_ff00ff00_or, and_ff0000, show (0x000000FF : Nat) = 255 from rfl, and_255,
    Nat.shiftRight_eq_div_pow]
  norm_num
  rw [four_bytes_lor _ _ _ _ (Nat.mod_lt _ (by norm_num)) (Nat.mod_lt _ (by norm_num))
    (Nat.mod_lt _ (by norm_num))]
  exact swcaColor_eq_bytes c

theorem swcaColor_bytes_explicit (b0 b1 b2 b3 : Nat)
    (h0 : b0 < 256) (h1 : b1 < 256) (h2 : b2 < 256) (h3 : b3 < 256) :
    swcaColor (b0 + b1 * 256 + b2 * 65536 + b3 * 16777216)
      = b2 + b1 * 256 + b0 * 65536 + b3 * 16777216 := by
  rw [swcaColor_eq_bytes]
  omega

theorem digits_mod256 (b0 b1 b2 b3 : Nat) (h0 : b0 < 256) :
    (b0 + b1 * 256 + b2 * 65536 + b3 * 16777216) % 256 = b0 := by
  omega

theorem digits_div256 (b0 b1 b2 b3 : Nat) (h0 : b0 < 256) (h1 : b1 < 256) :
    (b0 + b1 * 256 + b2 * 65536 + b3 * 16777216) / 256 % 256 = b1 := by
  omega

theorem digits_div65536 (b0 b1 b2 b3 : Nat) (h0 : b0 < 256) (h1 : b1 < 256) (h2 : b2 < 256) :
    (b0 + b1 * 256 + b2 * 65536 + b3 * 16777216) / 65536 % 256 = b2 := by
  omega

theorem digits_div16777216 (b0 b1 b2 b3 : Nat) (h0 : b0 < 256) (h1 : b1 < 256) (h2 : b2 < 256) :
    (b0 + b1 * 256 + b2 * 65536 + b3 * 16777216) / 16777216 = b3 := by
  omega

end BitLemmas

/-- Claim C8: for every 32-bit ARGB input color, the color submitted to the accent
API equals `(in &&& 0xFF00FF00) ||| ((in &&& 0x00FF0000) >>> 16) ||| ((in &&& 0x000000FF) <<< 16)`:
red and blue bytes are exchanged, alpha and green pass through unchanged, the swap
is an involution, and the implementation's `+` computes the same value as `|||`
because the three masked operands occupy disjoint bit positions. -/
theorem swca_color_swap_correct (c : Nat) (hc : c < 4294967296) :
    swcaColor c = swcaColorSpec c ∧
    swcaColor c % 256 = c / 65536 % 256 ∧
    swcaColor c / 65536 % 256 = c % 256 ∧
    swcaColor c / 256 % 256 = c / 256 % 256 ∧
    swcaColor c / 16777216 = c / 16777216 ∧
    swcaColor (swcaColor c) = c := by
  obtain ⟨b0, b1, b2, b3, h0, h1, h2, h3, rfl⟩ :
      ∃ b0 b1 b2 b3, b0 < 256 ∧ b1 < 256 ∧ b2 < 256 ∧ b3 < 256 ∧
        c = b0 + b1 * 256 + b2 * 65536 + b3 * 16777216 :=
    ⟨c % 256, c / 256 % 256, c / 65536 % 256, c / 16777216,
      Nat.mod_lt _ (by norm_num), Nat.mod_lt _ (by norm_num), Nat.mod_lt _ (by norm_num),
      by omega, by omega⟩
  have hsw := swcaColor_bytes_explicit b0 b1 b2 b3 h0 h1 h2 h3
  refine ⟨swcaColor_eq_spec _, ?_, ?_, ?_, ?_, ?_⟩
  · rw [hsw, digits_mod256 b2 b1 b0 b3 h2, digits_div65536 b0 b1 b2 b3 h0 h1 h2]
  · rw [hsw, digits_div65536 b2 b1 b0 b3 h2 h1 h0, digits_mod256 b0 b1 b2 b3 h0]
  · rw [hsw, digits_div256 b2 b1 b0 b3 h2 h1, digits_div256 b0 b1 b2 b3 h0 h1]
  · rw [hsw, digits_div16777216 b2 b1 b0 b3 h2 h1 h0, digits_div16777216 b0 b1 b2 b3 h0 h1 h2]
  · rw [hsw, swcaColor_bytes_explicit b2 b1 b0 b3 h2 h1 h0 h3]

/-- Witness for C8 at the concrete color 0x12345678. -/
theorem swca_color_swap_correct_witness :
    swcaColor 305419896 = swcaColorSpec 305419896 ∧
    swcaColor 305419896 % 256 = 305419896 / 65536 % 256 ∧
    swcaColor 305419896 / 65536 % 256 = 305419896 % 256 ∧
    swcaColor 305419896 / 256 % 256 = 305419896 / 256 % 256 ∧
    swcaColor 305419896 / 16777216 = 305419896 / 16777216 ∧
    swcaColor (swcaColor 305419896) = 305419896 :=
  swca_color_swap_correct 305419896 (by norm_num)

/-- Claim C7: a Fluent accent is never submitted with opacity byte 0: for every
32-bit color with alpha byte 0x00 the submitted policy color has alpha exactly 1
and low 24 bits unchanged; colors with nonzero alpha are submitted with their
alpha unchanged. -/
theorem fluent_never_zero_alpha (c : Nat) (hc : c < 4294967296) :
    (c / 16777216 = 0 →
      accentPolicyColor ACCENT.enableFluent c / 16777216 = 1 ∧
      accentPolicyColor ACCENT.enableFluent c % 16777216 = swcaColor c % 16777216) ∧
    (c / 16777216 ≠ 0 →
      accentPolicyColor ACCENT.enableFluent c = swcaColor c ∧
      accentPolicyColor ACCENT.enableFluent c / 16777216 = c / 16777216) := by
  obtain ⟨b0, b1, b2, b3, hw0, hw1, hw2, hw3, rfl⟩ :
      ∃ b0 b1 b2 b3, b0 < 256 ∧ b1 < 256 ∧ b2 < 256 ∧ b3 < 256 ∧
        c = b0 + b1 * 256 + b2 * 65536 + b3 * 16777216 :=
    ⟨c % 256, c / 256 % 256, c / 65536 % 256, c / 16777216,
      Nat.mod_lt _ (by norm_num), Nat.mod_lt _ (by norm_num), Nat.mod_lt _ (by norm_num),
      by omega, by omega⟩
  have hsw := swcaColor_bytes_explicit b0 b1 b2 b3 hw0 hw1 hw2 hw3
  have halpha : swcaColor (b0 + b1 * 256 + b2 * 65536 + b3 * 16777216) >>> 24
      = (b0 + b1 * 256 + b2 * 65536 + b3 * 16777216) / 16777216 := by
    rw [Nat.shiftRight_eq_div_pow, hsw, show (2 : Nat) ^ 24 = 16777216 from by norm_num,
      digits_div16777216 b2 b1 b0 b3 hw2 hw1 hw0, digits_div16777216 b0 b1 b2 b3 hw0 hw1 hw2]
  by_cases h0 : (b0 + b1 * 256 + b2 * 65536 + b3 * 16777216) / 16777216 = 0
  · refine ⟨fun _ => ?_, fun hne => absurd h0 hne⟩
    unfold accentPolicyColor
    rw [if_pos ⟨rfl, by rw [halpha]; exact h0⟩, and_ffffff,
      show (0x01 <<< 24 : Nat) = 16777216 from rfl, hsw]
    omega
  · refine ⟨fun h' => absurd h' h0, fun _ => ?_⟩
    unfold accentPolicyColor
    rw [if_neg (by rintro ⟨-, h⟩; rw [halpha] at h; exact h0 h)]
    refine ⟨rfl, ?_⟩
    rw [hsw, digits_div16777216 b2 b1 b0 b3 hw2 hw1 hw0,
      digits_div16777216 b0 b1 b2 b3 hw0 hw1 hw2]

/-- Witness for C7 at the concrete color 0x00345678 (zero alpha). -/
theorem fluent_never_zero_alpha_witness :
    (3430008 / 16777216 = 0 →
      accentPolicyColor ACCENT.enableFluent 3430008 / 16777216 = 1 ∧
      accentPolicyColor ACCENT.enableFluent 3430008 % 16777216 = swcaColor 3430008 % 16777216) ∧
    (3430008 / 16777216 ≠ 0 →
      accentPolicyColor ACCENT.enableFluent 3430008 = swcaColor 3430008 ∧
      accentPolicyColor ACCENT.enableFluent 3430008 / 16777216 = 3430008 / 16777216) :=
  fluent_never_zero_alpha 3430008 (by norm_num)

/-! ## `SetWindowBlur` and its `is_normal` static memo (main.cpp lines 77–116) -/

/-- Observable messages `SetWindowBlur` sends to the shell: the
`WM_THEMECHANGED` theme-reset (line 96) and the accent-policy submission via
`SetWindowCompositionAttribute` (line 113).  The embedding models the case in
which the composition-attribute entry point is available (the whole body is
skipped otherwise). -/
inductive Event
  | themeReset (hwnd : Nat)
  | submit (hwnd : Nat) (kind : ACCENT) (color : Nat)
  deriving DecidableEq, Repr

/-- Pointwise update of the `is_normal` map (`is_normal[window] = b`). -/
def memoUpdate (m : Nat → Option Bool) (hwnd : Nat) (b : Bool) : Nat → Option Bool :=
  fun h' => if h' = hwnd then some b else m h'

/-- One call of `SetWindowBlur(window, appearance, color)`: given the current
`is_normal` map it returns the updated map and the emitted messages.
`is_normal.count(window) == 0 || !is_normal[window]` is `m hwnd ≠ some true`. -/
def setWindowBlur (m : Nat → Option Bool) (hwnd : Nat) (k : ACCENT) (color : Nat) :
    (Nat → Option Bool) × List Event :=
  if k = ACCENT.normal then
    match m hwnd with
    | some true => (m, [])
    | _ => (memoUpdate m hwnd true, [Event.themeReset hwnd])
  else
    (memoUpdate m hwnd false, [Event.submit hwnd k (accentPolicyColor k color)])

/-- A sequence of `SetWindowBlur` calls threaded through the static memo. -/
def applySeq (m : Nat → Option Bool) : List (Nat × ACCENT × Nat) → (Nat → Option Bool) × List Event
  | [] => (m, [])
  | (w, k, c) :: rest =>
      let r := setWindowBlur m w k c
      let r' := applySeq r.1 rest
      (r'.1, r.2 ++ r'.2)

/-- The kind most recently applied to `hwnd` by a call sequence (`none` when
`hwnd` was never applied to). -/
def lastApplied (hwnd : Nat) : List (Nat × ACCENT × Nat) → Option ACCENT
  | [] => none
  | (w, k, _) :: rest =>
      match lastApplied hwnd rest with
      | some k' => some k'
      | none => if w = hwnd then some k else none

/-- Number of theme-reset signals for `hwnd` among the emitted messages. -/
def countThemeReset (evs : List Event) (hwnd : Nat) : Nat :=
  (evs.filter (fun e => e = Event.themeReset hwnd)).length

theorem setWindowBlur_memo_other (m : Nat → Option Bool) (w hwnd : Nat) (k : ACCENT) (c : Nat)
    (hw : w ≠ hwnd) : (setWindowBlur m w k c).1 hwnd = m hwnd := by
  unfold setWindowBlur
  by_cases hk : k = ACCENT.normal
  · simp only [hk, if_pos]
    cases hm : m w with
    | none => simp [memoUpdate, Ne.symm hw]
    | some b => cases b <;> simp [memoUpdate, Ne.symm hw]
  · simp [hk, memoUpdate, Ne.symm hw]

theorem applySeq_memo (hwnd : Nat) (ops : List (Nat × ACCENT × Nat)) (m : Nat → Option Bool) :
    (applySeq m ops).1 hwnd = (match lastApplied hwnd ops with
      | some k => some (decide (k = ACCENT.normal))
      | none => m hwnd) := by
  induction ops generalizing m with
  | nil => rfl
  | cons op rest ih =>
      obtain ⟨w, k, c⟩ := op
      show (applySeq (setWindowBlur m w k c).1 rest).1 hwnd = _
      rw [ih]
      cases hl : lastApplied hwnd rest with
      | some k' => simp [lastApplied, hl]
      | none =>
          simp only [lastApplied, hl]
          by_cases hw : w = hwnd
          · subst hw
            simp only [if_pos rfl]
            unfold setWindowBlur
            by_cases hk : k = ACCENT.normal
            · simp only [hk, if_pos, decide_eq_true_eq]
              cases hm : m w with
              | none => simp [memoUpdate]
              | some b => cases b <;> simp [hm, memoUpdate]
            · simp [hk, memoUpdate]
          · rw [if_neg hw]
            exact setWindowBlur_memo_other m w hwnd k c hw

/-- Claim C3: for every taskbar window, across any sequence of accent
applications, a theme-reset signal is emitted by the next call exactly when the
requested kind is Normal and the last previously applied kind for that window
was not Normal (including "never applied"); consecutive Normal applications
emit none, and a non-Normal application re-arms the edge. -/
theorem setWindowBlur_theme_count (m : Nat → Option Bool) (hwnd : Nat) (k : ACCENT) (c : Nat) :
    countThemeReset (setWindowBlur m hwnd k c).2 hwnd
      = if k = ACCENT.normal ∧ m hwnd ≠ some true then 1 else 0 := by
  unfold setWindowBlur
  by_cases hk : k = ACCENT.normal
  · simp only [hk, if_pos]
    cases hm : m hwnd with
    | none => simp [countThemeReset, hm]
    | some b => cases b <;> simp [countThemeReset, hm]
  · simp [hk, countThemeReset]

theorem theme_reset_only_on_edge (ops : List (Nat × ACCENT × Nat)) (hwnd : Nat)
    (k : ACCENT) (c : Nat) :
    countThemeReset (setWindowBlur (applySeq (fun _ => none) ops).1 hwnd k c).2 hwnd
      = if k = ACCENT.normal ∧ lastApplied hwnd ops ≠ some ACCENT.normal then 1 else 0 := by
  rw [setWindowBlur_theme_count, applySeq_memo]
  cases hl : lastApplied hwnd ops with
  | none => simp
  | some k' =>
      by_cases hk' : k' = ACCENT.normal
      · subst hk'
        simp
      · simp [hk']

/-! ## `TogglePeek` and its static cache (main.cpp lines 301–323) -/

/-- Observable actions of `TogglePeek`: showing or hiding the show-desktop
button, and the two `WM_LBUTTONUP` nudges sent to the overflow button. -/
inductive PeekEvent
  | showDesktopButton (visible : Bool)
  | overflowNudge
  deriving DecidableEq, Repr

/-- The function-local statics `cached_peek` / `cached_taskbar` of `TogglePeek`. -/
structure PeekCache where
  cachedPeek : Bool
  cachedTaskbar : Nat
  deriving DecidableEq, Repr

/-- The statics' initializers: `static bool cached_peek = true;
static Window cached_taskbar = Window(run.main_taskbar);` — evaluated with the
main-taskbar identity current at the first call. -/
def initPeekCache (mainTaskbar : Nat) : PeekCache := ⟨true, mainTaskbar⟩

/-- One call of `TogglePeek(status)`: acts (show/hide plus two nudges and a
cache update) only when the requested status differs from the cached one or the
primary taskbar identity changed. -/
def togglePeek (cache : PeekCache) (mainTaskbar : Nat) (status : Bool) :
    PeekCache × List PeekEvent :=
  if status ≠ cache.cachedPeek ∨ cache.cachedTaskbar ≠ mainTaskbar then
    (⟨status, mainTaskbar⟩,
      [PeekEvent.showDesktopButton status, PeekEvent.overflowNudge, PeekEvent.overflowNudge])
  else
    (cache, [])

/-- Claim C10: the peek cache starts as (visible = true, current primary
taskbar), so the first `TogglePeek true` call with the primary taskbar
unchanged performs no platform action at all; in general the platform is
touched exactly when the requested visibility differs from the cached value or
the primary taskbar identity changed. -/
theorem toggle_peek_cache_behaviour (mainTaskbar : Nat) (cache : PeekCache) (status : Bool) :
    togglePeek (initPeekCache mainTaskbar) mainTaskbar true = (initPeekCache mainTaskbar, []) ∧
    ((togglePeek cache mainTaskbar status).2 ≠ [] ↔
      status ≠ cache.cachedPeek ∨ cache.cachedTaskbar ≠ mainTaskbar) := by
  constructor
  · simp [togglePeek, initPeekCache]
  · by_cases h : status ≠ cache.cachedPeek ∨ cache.cachedTaskbar ≠ mainTaskbar
    · simp [togglePeek, h]
    · simp [togglePeek, h]

/-! ## The blacklist matcher (`IsWindowBlacklisted`, main.cpp lines 344–408) -/

/-- The window metadata the matcher consults, as returned by the platform
facade (`Window::classname/title/filename`); strings are lists of characters. -/
structure WindowInfo where
  hwnd : Nat
  classname : List Char
  title : List Char
  filename : List Char
  deriving DecidableEq, Repr

/-- The `OPTIONS` struct of main.cpp (the three parsed blacklist rule sets). -/
structure OPTIONS where
  blacklisted_classes : List (List Char)
  blacklisted_filenames : List (List Char)
  blacklisted_titles : List (List Char)
  deriving DecidableEq, Repr

/-- The matcher's mutable state: the function-local static `blacklist_cache`
(an association from window handle to cached answer) and `run.cache_hits`
(zero-initialized static storage). -/
structure MatcherState where
  cache : List (Nat × Bool)
  hits : Nat
  deriving DecidableEq, Repr

def cacheLookup : List (Nat × Bool) → Nat → Option Bool
  | [], _ => none
  | (k, v) :: rest, h => if k = h then some v else cacheLookup rest h

def cacheInsert : List (Nat × Bool) → Nat → Bool → List (Nat × Bool)
  | [], h, v => [(h, v)]
  | (k, w) :: rest, h, v => if k = h then (h, v) :: rest else (k, w) :: cacheInsert rest h v

/-- `title.find(value) != npos`: `needle` occurs contiguously in `haystack`. -/
def isSubstring : List Char → List Char → Bool
  | needle, [] => needle.isEmpty
  | needle, c :: rest => needle.isPrefixOf (c :: rest) || isSubstring needle rest

/-- The rule evaluation of `IsWindowBlacklisted` in source order: class-name
exact match (lines 366–375), then title substring match (lines 380–390), then
executable name compared after `Util::ToLower` (lines 393–404), else false.
`lower` is the character lower-casing of `Util::ToLower` (external header). -/
def evalBlacklistRules (opt : OPTIONS) (lower : Char → Char) (w : WindowInfo) : Bool :=
  if opt.blacklisted_classes.any (fun v => w.classname == v) then true
  else if opt.blacklisted_titles.any (fun v => isSubstring v w.title) then true
  else if opt.blacklisted_filenames.any (fun v => w.filename.map lower == v) then true
  else false

/-- `IsWindowBlacklisted(window)`: consult the cache while
`cache_hits <= CACHE_HIT_MAX`, otherwise clear the cache, re-evaluate the rules
and cache the computed answer.  `cacheHitMax` is `Config::CACHE_HIT_MAX`
(configuration header, external). -/
def isWindowBlacklisted (cacheHitMax : Nat) (opt : OPTIONS) (lower : Char → Char)
    (s : MatcherState) (w : WindowInfo) : Bool × MatcherState :=
  if s.hits ≤ cacheHitMax ∧ (cacheLookup s.cache w.hwnd).isSome = true then
    ((cacheLookup s.cache w.hwnd).getD false, { s with hits := s.hits + 1 })
  else
    let s1 : MatcherState := if cacheHitMax < s.hits then { cache := [], hits := 0 } else s
    let r := evalBlacklistRules opt lower w
    (r, { s1 with cache := cacheInsert s1.cache w.hwnd r })

/-- `ClearBlacklistCache()`: `run.cache_hits = Config::CACHE_HIT_MAX + 1`. -/
def clearBlacklistCache (cacheHitMax : Nat) (s : MatcherState) : MatcherState :=
  { s with hits := cacheHitMax + 1 }

/-- Matcher states produced from the initial state (empty cache, zero hits,
the zero-initialization of the statics) by any interleaving of
`IsWindowBlacklisted` calls and `ClearBlacklistCache` calls. -/
inductive ReachableMatcher (cacheHitMax : Nat) (opt : OPTIONS) (lower : Char → Char) :
    MatcherState → Prop
  | init : ReachableMatcher cacheHitMax opt lower ⟨[], 0⟩
  | query (s : MatcherState) (w : WindowInfo) :
      ReachableMatcher cacheHitMax opt lower s →
      ReachableMatcher cacheHitMax opt lower (isWindowBlacklisted cacheHitMax opt lower s w).2
  | clear (s : MatcherState) :
      ReachableMatcher cacheHitMax opt lower s →
      ReachableMatcher cacheHitMax opt lower (clearBlacklistCache cacheHitMax s)

theorem any_map_lower_fixed (lower : Char → Char) (exe : List Char) :
    ∀ l : List (List Char), (∀ v ∈ l, v.map lower = v) →
      l.any (fun v => exe == v) = l.any (fun v => exe == v.map lower)
  | [], _ => rfl
  | v :: rest, h => by
      have hv : v.map lower = v := h v (by simp)
      simp only [List.any_cons, hv]
      rw [any_map_lower_fixed lower exe rest (fun u hu => h u (by simp [hu]))]

/-- Claim C4: `IsWindowBlacklisted` returns the cached boolean and increments
the hit counter when the counter is within bound and the window is cached;
otherwise (clearing cache and counter first if the counter exceeds the bound)
it evaluates class-name exact match, then title substring, then lower-cased
executable name, caches the result and returns it; for rule sets whose
executable entries are already lower-case the executable comparison is
case-insensitive with both sides lower-cased. -/
theorem is_window_blacklisted_spec (cacheHitMax : Nat) (opt : OPTIONS) (lower : Char → Char)
    (s : MatcherState) (w : WindowInfo)
    (hlower : ∀ v ∈ opt.blacklisted_filenames, v.map lower = v) :
    (∀ b, s.hits ≤ cacheHitMax → cacheLookup s.cache w.hwnd = some b →
      isWindowBlacklisted cacheHitMax opt lower s w = (b, { s with hits := s.hits + 1 })) ∧
    (s.hits ≤ cacheHitMax → cacheLookup s.cache w.hwnd = none →
      isWindowBlacklisted cacheHitMax opt lower s w
        = (evalBlacklistRules opt lower w,
           { s with cache := cacheInsert s.cache w.hwnd (evalBlacklistRules opt lower w) })) ∧
    (cacheHitMax < s.hits →
      isWindowBlacklisted cacheHitMax opt lower s w
        = (evalBlacklistRules opt lower w,
           ⟨[(w.hwnd, evalBlacklistRules opt lower w)], 0⟩)) ∧
    (evalBlacklistRules opt lower w
      = (opt.blacklisted_classes.any (fun v => w.classname == v) ||
         opt.blacklisted_titles.any (fun v => isSubstring v w.title) ||
         opt.blacklisted_filenames.any (fun v => w.filename.map lower == v.map lower))) := by
  refine ⟨?_, ?_, ?_, ?_⟩
  · intro b hh hc
    unfold isWindowBlacklisted
    rw [if_pos ⟨hh, by rw [hc]; rfl⟩, hc]
    rfl
  · intro hh hc
    unfold isWindowBlacklisted
    rw [if_neg (by rintro ⟨-, hs⟩; rw [hc] at hs; exact Bool.false_ne_true hs)]
    simp only [if_neg (Nat.not_lt.mpr hh)]
  · intro hh
    unfold isWindowBlacklisted
    rw [if_neg (by rintro ⟨h1, -⟩; exact absurd hh (Nat.not_lt.mpr h1))]
    simp only [if_pos hh]
    rfl
  · rw [← any_map_lower_fixed lower (w.filename.map lower) opt.blacklisted_filenames hlower]
    unfold evalBlacklistRules
    by_cases h1 : opt.blacklisted_classes.any (fun v => w.classname == v)
    · simp [h1]
    · by_cases h2 : opt.blacklisted_titles.any (fun v => isSubstring v w.title)
      · simp [h1, h2]
      · by_cases h3 : opt.blacklisted_filenames.any (fun v => w.filename.map lower == v)
        · simp [h1, h2, h3]
        · simp [h1, h2, h3]

/-- Witness for C4 at a concrete matcher configuration (empty rule sets,
empty cache, hit counter 0, bound 1, window handle 5). -/
theorem is_window_blacklisted_spec_witness :
    (∀ b : Bool, 0 ≤ 1 → (none : Option Bool) = some b →
      isWindowBlacklisted 1 ⟨[], [], []⟩ id ⟨[], 0⟩ ⟨5, [], [], []⟩ = (b, ⟨[], 1⟩)) ∧
    (0 ≤ 1 → (none : Option Bool) = none →
      isWindowBlacklisted 1 ⟨[], [], []⟩ id ⟨[], 0⟩ ⟨5, [], [], []⟩ = (false, ⟨[(5, false)], 0⟩)) ∧
    (1 < 0 →
      isWindowBlacklisted 1 ⟨[], [], []⟩ id ⟨[], 0⟩ ⟨5, [], [], []⟩ = (false, ⟨[(5, false)], 0⟩)) ∧
    (false : Bool) = false :=
  is_window_blacklisted_spec 1 ⟨[], [], []⟩ id ⟨[], 0⟩ ⟨5, [], [], []⟩ (by simp)

/-- Claim C5: in every reachable matcher state the hit counter is at most
`cache_hit_max + 1`, and whenever the counter strictly exceeds `cache_hit_max`
the next evaluation ignores the cache entirely — it returns the freshly
evaluated rules and leaves exactly the one fresh entry in a cleared cache with
the counter reset to 0 — so a cached answer is never returned while the counter
exceeds the bound. -/
theorem blacklist_cache_hit_bound (cacheHitMax : Nat) (opt : OPTIONS) (lower : Char → Char)
    (s : MatcherState) (hs : ReachableMatcher cacheHitMax opt lower s) :
    s.hits ≤ cacheHitMax + 1 ∧
    (∀ w : WindowInfo, cacheHitMax < s.hits →
      (isWindowBlacklisted cacheHitMax opt lower s w).1 = evalBlacklistRules opt lower w ∧
      (isWindowBlacklisted cacheHitMax opt lower s w).2.cache
        = [(w.hwnd, evalBlacklistRules opt lower w)] ∧
      (isWindowBlacklisted cacheHitMax opt lower s w).2.hits = 0) := by
  have hover : ∀ (t : MatcherState) (w : WindowInfo), cacheHitMax < t.hits →
      (isWindowBlacklisted cacheHitMax opt lower t w).1 = evalBlacklistRules opt lower w ∧
      (isWindowBlacklisted cacheHitMax opt lower t w).2.cache
        = [(w.hwnd, evalBlacklistRules opt lower w)] ∧
      (isWindowBlacklisted cacheHitMax opt lower t w).2.hits = 0 := by
    intro t w hh
    unfold isWindowBlacklisted
    rw [if_neg (by rintro ⟨h1, -⟩; exact absurd hh (Nat.not_lt.mpr h1))]
    rw [if_pos hh]
    exact ⟨rfl, rfl, rfl⟩
  refine ⟨?_, hover s⟩
  induction hs with
  | init => exact Nat.zero_le _
  | query t w ht ih =>
      unfold isWindowBlacklisted
      by_cases hcond : t.hits ≤ cacheHitMax ∧ (cacheLookup t.cache w.hwnd).isSome = true
      · rw [if_pos hcond]
        show t.hits + 1 ≤ cacheHitMax + 1
        have := hcond.1
        omega
      · rw [if_neg hcond]
        by_cases hh : cacheHitMax < t.hits
        · rw [if_pos hh]
          exact Nat.zero_le _
        · rw [if_neg hh]
          exact ih
  | clear t ht ih => exact Nat.le_refl _

/-- Witness for C5 at the concrete state reached by one `ClearBlacklistCache`
call from the initial state (bound 1, counter 2, empty cache). -/
theorem blacklist_cache_hit_bound_witness :
    (2 : Nat) ≤ 1 + 1 ∧
    (∀ w : WindowInfo, 1 < 2 →
      (isWindowBlacklisted 1 ⟨[], [], []⟩ id ⟨[], 2⟩ w).1 = evalBlacklistRules ⟨[], [], []⟩ id w ∧
      (isWindowBlacklisted 1 ⟨[], [], []⟩ id ⟨[], 2⟩ w).2.cache
        = [(w.hwnd, evalBlacklistRules ⟨[], [], []⟩ id w)] ∧
      (isWindowBlacklisted 1 ⟨[], [], []⟩ id ⟨[], 2⟩ w).2.hits = 0) :=
  blacklist_cache_hit_bound 1 ⟨[], [], []⟩ id ⟨[], 2⟩
    (ReachableMatcher.clear _ ReachableMatcher.init)

/-! ## Taskbar registry, state classifier and accent applier
(`RefreshHandles`, `EnumWindowsProcess`, `SetTaskbarBlur`, main.cpp lines 279–560) -/

/-- One entry of `run.taskbars` (`unordered_map<HMONITOR, pair<HWND, TASKBARSTATE>>`),
keyed by monitor. -/
structure TaskbarEntry where
  monitor : Nat
  hwnd : Nat
  state : TASKBARSTATE
  deriving DecidableEq, Repr

/-- `run.taskbars.find(m)` as used through `.at(m)`: association lookup by
monitor (keys are unique in the map). -/
def regLookup : List TaskbarEntry → Nat → Option TaskbarEntry
  | [], _ => none
  | e :: rest, m => if e.monitor = m then some e else regLookup rest m

/-- `run.taskbars.at(m).second = st`: update the state of the entry keyed by
`m` (unique keys, so the first match is the entry). -/
def regSetState : List TaskbarEntry → Nat → TASKBARSTATE → List TaskbarEntry
  | [], _, _ => []
  | e :: rest, m, st =>
      if e.monitor = m then { e with state := st } :: rest
      else e :: regSetState rest m st

/-- The `for (auto &taskbar : run.taskbars) taskbar.second.second = …;` loops
(main.cpp lines 505–508 and 535–538). -/
def regResetAll (regs : List TaskbarEntry) (st : TASKBARSTATE) : List TaskbarEntry :=
  regs.map (fun e => { e with state := st })

/-- The `Config::PEEK` option (enumeration external to main.cpp; the three
states are used as `Enabled`/`Dynamic`/else in lines 482, 503, 509). -/
inductive PEEKMODE
  | Enabled
  | Dynamic
  | Disabled
  deriving DecidableEq, BEq, Repr

/-- The `Config::…` globals consumed by `SetTaskbarBlur`/`EnumWindowsProcess`
(configuration storage is external to main.cpp). -/
structure Config where
  taskbar_appearance : ACCENT
  taskbar_color : Nat
  dynamic_ws : Bool
  dynamic_appearance : ACCENT
  dynamic_color : Nat
  dynamic_start : Bool
  dynamic_normal_on_peek : Bool
  peek : PEEKMODE
  deriving Repr

/-- Metadata of one enumerated top-level window as consulted by
`EnumWindowsProcess` (main.cpp line 474). -/
structure EnumWindow where
  hwnd : Nat
  monitor : Nat
  visible : Bool
  maximised : Bool
  cloaked : Bool
  onCurrentDesktop : Bool
  deriving DecidableEq, Repr

/-- The runtime fields of `RUNTIMESTATE` read by the classification pass. -/
structure RunState where
  mainTaskbar : Nat
  taskbars : List TaskbarEntry
  peekActive : Bool
  fluentAvailable : Bool
  deriving Repr

/-- The trigger condition of `EnumWindowsProcess` (main.cpp line 474):
`visible && state == SW_MAXIMIZE && !cloaked && !IsWindowBlacklisted && on_current_desktop`.
The blacklist matcher is passed in as a predicate. -/
def eligibleWindow (blacklisted : EnumWindow → Bool) (w : EnumWindow) : Bool :=
  w.visible && w.maximised && !w.cloaked && !blacklisted w && w.onCurrentDesktop

/-- The `EnumWindows(&EnumWindowsProcess, NULL)` traversal (main.cpp lines
468–488) threading the registry and `run.should_show_peek`.  The
`run.taskbars.at(window.monitor())` lookup throws `std::out_of_range` when the
monitor is absent; this is modelled by `none`. -/
def enumWindowsPass (cfg : Config) (blacklisted : EnumWindow → Bool) (mainTaskbar : Nat) :
    List EnumWindow → List TaskbarEntry → Bool → Option (List TaskbarEntry × Bool)
  | [], regs, ssp => some (regs, ssp)
  | w :: rest, regs, ssp =>
      if eligibleWindow blacklisted w then
        match regLookup regs w.monitor with
        | none => none
        | some entry =>
            let regs' := if cfg.dynamic_ws then
                regSetState regs w.monitor TASKBARSTATE.WindowMaximised
              else regs
            let ssp' := ssp || (cfg.peek == PEEKMODE.Dynamic && entry.hwnd == mainTaskbar)
            enumWindowsPass cfg blacklisted mainTaskbar rest regs' ssp'
      else
        enumWindowsPass cfg blacklisted mainTaskbar rest regs ssp

/-- The accent chosen per taskbar state by the `switch` of `SetTaskbarBlur`
(main.cpp lines 544–558): `StartMenuOpen → (ACCENT_NORMAL, NULL)`,
`WindowMaximised → (DYNAMIC_APPEARANCE, DYNAMIC_COLOR)`,
`Normal → (TASKBAR_APPEARANCE, TASKBAR_COLOR)`. -/
def accentForState (cfg : Config) (st : TASKBARSTATE) : ACCENT × Nat :=
  match st with
  | TASKBARSTATE.StartMenuOpen => (ACCENT.normal, 0)
  | TASKBARSTATE.WindowMaximised => (cfg.dynamic_appearance, cfg.dynamic_color)
  | TASKBARSTATE.Normal => (cfg.taskbar_appearance, cfg.taskbar_color)

/-- The applier loop of `SetTaskbarBlur`: one `SetWindowBlur` call per registry
entry, threading the `is_normal` memo. -/
def applyAllTaskbars (cfg : Config) :
    (Nat → Option Bool) → List TaskbarEntry → (Nat → Option Bool) × List Event
  | memo, [] => (memo, [])
  | memo, e :: rest =>
      let p := accentForState cfg e.state
      let r := setWindowBlur memo e.hwnd p.1 p.2
      let r' := applyAllTaskbars cfg r.1 rest
      (r'.1, r.2 ++ r'.2)

/-- Everything a full classification tick produces. -/
structure TickResult where
  taskbars : List TaskbarEntry
  shouldShowPeek : Bool
  peekCache : PeekCache
  memo : Nat → Option Bool
  accentEvents : List Event
  peekEvents : List PeekEvent

/-- The full classification branch of `SetTaskbarBlur` (main.cpp lines
499–559, the `counter >= 10` body followed by the applier loop), in source
order: reset `should_show_peek` (503); reset all states (505–508); enumerate
windows when `DYNAMIC_WS || PEEK == Dynamic` (509–513); `TogglePeek` (515);
`DYNAMIC_START` Start-menu lookup (517–521, `.at` may throw); the
`DYNAMIC_NORMAL_ON_PEEK` reset (533–539); then apply accents (544–558).
`startVisible` is `Util::IsStartVisible()` and `startMonitor` the monitor of
the found Start window.  `none` models an escaped `std::out_of_range`. -/
def fullClassificationPass (cfg : Config) (blacklisted : EnumWindow → Bool)
    (windows : List EnumWindow) (startVisible : Bool) (startMonitor : Nat)
    (run : RunState) (pc : PeekCache) (memo : Nat → Option Bool) : Option TickResult :=
  match (if cfg.dynamic_ws || cfg.peek == PEEKMODE.Dynamic then
           enumWindowsPass cfg blacklisted run.mainTaskbar windows
             (regResetAll run.taskbars TASKBARSTATE.Normal) (cfg.peek == PEEKMODE.Enabled)
         else some (regResetAll run.taskbars TASKBARSTATE.Normal,
                    cfg.peek == PEEKMODE.Enabled)) with
  | none => none
  | some (regs1, ssp1) =>
    match (if cfg.dynamic_start && startVisible then
             match regLookup regs1 startMonitor with
             | none => none
             | some _ => some (regSetState regs1 startMonitor TASKBARSTATE.StartMenuOpen)
           else some regs1) with
    | none => none
    | some regs2 =>
      some ⟨(if cfg.dynamic_ws && cfg.dynamic_normal_on_peek && run.peekActive then
               regResetAll regs2 TASKBARSTATE.Normal
             else regs2),
            ssp1,
            (togglePeek pc run.mainTaskbar ssp1).1,
            (applyAllTaskbars cfg memo
              (if cfg.dynamic_ws && cfg.dynamic_normal_on_peek && run.peekActive then
                 regResetAll regs2 TASKBARSTATE.Normal
               else regs2)).1,
            (applyAllTaskbars cfg memo
              (if cfg.dynamic_ws && cfg.dynamic_normal_on_peek && run.peekActive then
                 regResetAll regs2 TASKBARSTATE.Normal
               else regs2)).2,
            (togglePeek pc run.mainTaskbar ssp1).2⟩

/-- The `(window, kind)` pairs actually submitted to
`SetWindowCompositionAttribute` among the emitted messages. -/
def submittedKinds (evs : List Event) : List (Nat × ACCENT) :=
  evs.filterMap (fun e => match e with
    | Event.submit h k _ => some (h, k)
    | _ => none)

theorem submittedKinds_append (a b : List Event) :
    submittedKinds (a ++ b) = submittedKinds a ++ submittedKinds b := by
  unfold submittedKinds
  exact List.filterMap_append a b _

theorem submittedKinds_applyAll (cfg : Config) :
    ∀ (regs : List TaskbarEntry) (memo : Nat → Option Bool),
      submittedKinds (applyAllTaskbars cfg memo regs).2
        = regs.filterMap (fun e =>
            if (accentForState cfg e.state).1 = ACCENT.normal then none
            else some (e.hwnd, (accentForState cfg e.state).1))
  | [], _ => rfl
  | e :: rest, memo => by
      show submittedKinds ((setWindowBlur memo e.hwnd _ _).2 ++ _) = _
      rw [submittedKinds_append]
      rw [submittedKinds_applyAll cfg rest]
      by_cases hk : (accentForState cfg e.state).1 = ACCENT.normal
      · unfold setWindowBlur
        cases hm : memo e.hwnd with
        | none => simp [hk, submittedKinds, List.filterMap_cons]
        | some b => cases b <;> simp [hk, hm, submittedKinds, List.filterMap_cons]
      · unfold setWindowBlur
        simp [hk, submittedKinds, List.filterMap_cons]

/-- Counterexample to claim C1: with `TASKBAR_APPEARANCE = Fluent` and
`run.fluent_available = false`, the pass submits the Fluent accent itself (with
the promoted alpha), not Blur: no demotion happens anywhere in
`SetTaskbarBlur`/`SetWindowBlur`. -/
theorem fluent_submitted_without_support :
    (Option.map TickResult.accentEvents (fullClassificationPass
        { taskbar_appearance := ACCENT.enableFluent, taskbar_color := 0,
          dynamic_ws := false, dynamic_appearance := ACCENT.enableBlurbehind,
          dynamic_color := 0, dynamic_start := false, dynamic_normal_on_peek := false,
          peek := PEEKMODE.Disabled }
        (fun _ => false) [] false 0
        ⟨100, [⟨0, 100, TASKBARSTATE.Normal⟩], false, false⟩
        (initPeekCache 100) (fun _ => none)))
      = some [Event.submit 100 ACCENT.enableFluent 16777216] ∧
    ACCENT.enableFluent ≠ ACCENT.enableBlurbehind ∧
    (⟨100, [⟨0, 100, TASKBARSTATE.Normal⟩], false, false⟩ : RunState).fluentAvailable = false :=
  ⟨rfl, by decide, rfl⟩

/-- Claim C1 (amended): the kind submitted for each taskbar is exactly the kind
the configuration table assigns to its state — no Fluent-to-Blur demotion — and
the whole classification pass is independent of `run.fluent_available` (which
only gates tray-menu entries elsewhere in the program). -/
theorem submitted_kind_equals_configured (cfg : Config) (memo : Nat → Option Bool)
    (regs : List TaskbarEntry) (bl : EnumWindow → Bool) (ws : List EnumWindow)
    (sv : Bool) (sm main : Nat) (tb : List TaskbarEntry) (pa fa fa' : Bool)
    (pc : PeekCache) :
    submittedKinds (applyAllTaskbars cfg memo regs).2
      = regs.filterMap (fun e =>
          if (accentForState cfg e.state).1 = ACCENT.normal then none
          else some (e.hwnd, (accentForState cfg e.state).1)) ∧
    fullClassificationPass cfg bl ws sv sm ⟨main, tb, pa, fa⟩ pc memo
      = fullClassificationPass cfg bl ws sv sm ⟨main, tb, pa, fa'⟩ pc memo :=
  ⟨submittedKinds_applyAll cfg regs memo, rfl⟩

theorem regResetAll_state (regs : List TaskbarEntry) (st : TASKBARSTATE) :
    ∀ e ∈ regResetAll regs st, e.state = st := by
  intro e he
  unfold regResetAll at he
  obtain ⟨x, -, rfl⟩ := List.mem_map.mp he
  rfl

/-- Counterexample to claim C2: dynamic windows, normal-on-peek and an active
peek, with the Start menu open on monitor 0 whose taskbar is registered — the
pass leaves that taskbar `Normal`, not `StartMenuOpen`: the peek-active reset
(lines 533–539) runs after the Start assignment (lines 517–521) and erases it. -/
theorem peek_reset_erases_start_menu :
    (Option.map TickResult.taskbars (fullClassificationPass
        { taskbar_appearance := ACCENT.enableBlurbehind, taskbar_color := 0,
          dynamic_ws := true, dynamic_appearance := ACCENT.enableBlurbehind,
          dynamic_color := 0, dynamic_start := true, dynamic_normal_on_peek := true,
          peek := PEEKMODE.Disabled }
        (fun _ => false) [] true 0
        ⟨100, [⟨0, 100, TASKBARSTATE.Normal⟩], true, false⟩
        (initPeekCache 100) (fun _ => none)))
      = some [⟨0, 100, TASKBARSTATE.Normal⟩] ∧
    TASKBARSTATE.Normal ≠ TASKBARSTATE.StartMenuOpen :=
  ⟨rfl, by decide⟩

/-- Claim C2 (amended): when `dynamic_ws_enabled`, `normal_when_peek_active`
and `peek_active` all hold, the peek-active reset runs last and overrides both
`WindowMaximised` and `StartMenuOpen`: every taskbar ends the pass in `Normal`.
The effective precedence is (peek-active reset to Normal) > StartMenuOpen >
WindowMaximised > Normal. -/
theorem peek_reset_overrides_start_menu (cfg : Config) (bl : EnumWindow → Bool)
    (ws : List EnumWindow) (sv : Bool) (sm : Nat) (run : RunState) (pc : PeekCache)
    (memo : Nat → Option Bool) (r : TickResult)
    (hws : cfg.dynamic_ws = true) (hnp : cfg.dynamic_normal_on_peek = true)
    (hpa : run.peekActive = true)
    (hr : fullClassificationPass cfg bl ws sv sm run pc memo = some r) :
    ∀ e ∈ r.taskbars, e.state = TASKBARSTATE.Normal := by
  unfold fullClassificationPass at hr
  split at hr
  · exact Option.noConfusion hr
  · split at hr
    · exact Option.noConfusion hr
    · rw [Option.some_inj] at hr
      subst hr
      intro e he
      simp only [hws, hnp, hpa, Bool.and_self, Bool.and_true, if_true] at he
      exact regResetAll_state _ _ e he

/-- Witness for the amended C2 at a concrete pass input and a concrete
taskbar entry of its result. -/
theorem peek_reset_overrides_start_menu_witness :
    (⟨0, 100, TASKBARSTATE.Normal⟩ : TaskbarEntry).state = TASKBARSTATE.Normal :=
  peek_reset_overrides_start_menu
    { taskbar_appearance := ACCENT.enableBlurbehind, taskbar_color := 0,
      dynamic_ws := true, dynamic_appearance := ACCENT.enableBlurbehind,
      dynamic_color := 0, dynamic_start := true, dynamic_normal_on_peek := true,
      peek := PEEKMODE.Disabled }
    (fun _ => false) [] true 0
    ⟨100, [⟨0, 100, TASKBARSTATE.Normal⟩], true, false⟩
    (initPeekCache 100) (fun _ => none) _ rfl rfl rfl rfl
    ⟨0, 100, TASKBARSTATE.Normal⟩ (by decide)

theorem regLookup_regSetState (regs : List TaskbarEntry) (m : Nat) (st : TASKBARSTATE)
    (m' : Nat) :
    (regLookup (regSetState regs m st) m').isSome = (regLookup regs m').isSome := by
  induction regs with
  | nil => rfl
  | cons e rest ih =>
      by_cases h : e.monitor = m
      · simp only [regSetState, if_pos h]
        by_cases h' : e.monitor = m'
        · simp [regLookup, h']
        · simp [regLookup, h']
      · simp only [regSetState, if_neg h]
        by_cases h' : e.monitor = m'
        · simp [regLookup, h']
        · simp [regLookup, h', ih]

theorem regLookup_regResetAll (regs : List TaskbarEntry) (st : TASKBARSTATE) (m : Nat) :
    (regLookup (regResetAll regs st) m).isSome = (regLookup regs m).isSome := by
  induction regs with
  | nil => rfl
  | cons e rest ih =>
      by_cases h' : e.monitor = m
      · simp [regResetAll, regLookup, h']
      · simp only [regResetAll, List.map_cons] at ih ⊢
        simp [regLookup, h', ih]

theorem enumWindowsPass_ok (cfg : Config) (bl : EnumWindow → Bool) (main : Nat) :
    ∀ (ws : List EnumWindow) (regs : List TaskbarEntry) (ssp : Bool),
      (∀ w ∈ ws, eligibleWindow bl w = true → (regLookup regs w.monitor).isSome = true) →
      ∃ p, enumWindowsPass cfg bl main ws regs ssp = some p ∧
        ∀ m, (regLookup p.1 m).isSome = (regLookup regs m).isSome
  | [], regs, ssp, _ => ⟨(regs, ssp), rfl, fun _ => rfl⟩
  | w :: rest, regs, ssp, h => by
      by_cases he : eligibleWindow bl w = true
      · have hl := h w (List.mem_cons_self w rest) he
        cases hq : regLookup regs w.monitor with
        | none => rw [hq] at hl; exact absurd hl (by simp)
        | some entry =>
            have hpres : ∀ m, (regLookup (if cfg.dynamic_ws then
                regSetState regs w.monitor TASKBARSTATE.WindowMaximised else regs) m).isSome
                = (regLookup regs m).isSome := by
              intro m
              by_cases hd : cfg.dynamic_ws
              · rw [if_pos hd, regLookup_regSetState]
              · rw [if_neg hd]
            obtain ⟨p, hp, hpr⟩ := enumWindowsPass_ok cfg bl main rest
              (if cfg.dynamic_ws then regSetState regs w.monitor TASKBARSTATE.WindowMaximised
               else regs)
              (ssp || (cfg.peek == PEEKMODE.Dynamic && entry.hwnd == main))
              (fun w' hw' he' => by rw [hpres]; exact h w' (List.mem_cons_of_mem w hw') he')
            refine ⟨p, ?_, fun m => (hpr m).trans (hpres m)⟩
            unfold enumWindowsPass
            rw [if_pos he, hq]
            exact hp
      · obtain ⟨p, hp, hpr⟩ := enumWindowsPass_ok cfg bl main rest regs ssp
          (fun w' hw' he' => h w' (List.mem_cons_of_mem w hw') he')
        refine ⟨p, ?_, hpr⟩
        unfold enumWindowsPass
        rw [if_neg he]
        exact hp

/-- Counterexample to claim C6: a visible maximised eligible window sits on
monitor 5 while the registry only has monitor 0 — the
`run.taskbars.at(window.monitor())` lookup in `EnumWindowsProcess` (line 476)
has no entry and the tick aborts (`std::out_of_range` escapes; under
`std::set_terminate(Terminate)` the process exits). -/
theorem missing_monitor_aborts_pass :
    fullClassificationPass
      { taskbar_appearance := ACCENT.enableBlurbehind, taskbar_color := 0,
        dynamic_ws := true, dynamic_appearance := ACCENT.enableBlurbehind,
        dynamic_color := 0, dynamic_start := false, dynamic_normal_on_peek := false,
        peek := PEEKMODE.Disabled }
      (fun _ => false)
      [⟨50, 5, true, true, false, true⟩]
      false 0
      ⟨100, [⟨0, 100, TASKBARSTATE.Normal⟩], false, false⟩
      (initPeekCache 100) (fun _ => none)
      = none ∧
    eligibleWindow (fun _ => false) ⟨50, 5, true, true, false, true⟩ = true ∧
    regLookup [⟨0, 100, TASKBARSTATE.Normal⟩] 5 = none :=
  ⟨rfl, rfl, rfl⟩

/-- Claim C6 (amended): the classification pass completes (no abort) provided
every eligible enumerated window's monitor has a registry entry and, when the
dynamic-Start lookup runs, the Start monitor has one too; without those
conditions the `.at` lookups throw and the tick — and with it the loop — is
aborted rather than contained. -/
theorem pass_completes_when_monitors_present (cfg : Config) (bl : EnumWindow → Bool)
    (ws : List EnumWindow) (sv : Bool) (sm : Nat) (run : RunState) (pc : PeekCache)
    (memo : Nat → Option Bool)
    (hwmon : ∀ w ∈ ws, eligibleWindow bl w = true →
      (regLookup run.taskbars w.monitor).isSome = true)
    (hstart : (cfg.dynamic_start && sv) = true → (regLookup run.taskbars sm).isSome = true) :
    (fullClassificationPass cfg bl ws sv sm run pc memo).isSome = true := by
  unfold fullClassificationPass
  split
  · rename_i heq
    exfalso
    by_cases hA : (cfg.dynamic_ws || cfg.peek == PEEKMODE.Dynamic) = true
    · rw [if_pos hA] at heq
      obtain ⟨p, hp, -⟩ := enumWindowsPass_ok cfg bl run.mainTaskbar ws _ _
        (fun w hw he => by rw [regLookup_regResetAll]; exact hwmon w hw he)
      rw [hp] at heq
      exact Option.noConfusion heq
    · rw [if_neg hA] at heq
      exact Option.noConfusion heq
  · rename_i regs1 ssp1 heq
    have hpr1 : ∀ m, (regLookup regs1 m).isSome = (regLookup run.taskbars m).isSome := by
      by_cases hA : (cfg.dynamic_ws || cfg.peek == PEEKMODE.Dynamic) = true
      · rw [if_pos hA] at heq
        obtain ⟨p, hp, hpr⟩ := enumWindowsPass_ok cfg bl run.mainTaskbar ws _ _
          (fun w hw he => by rw [regLookup_regResetAll]; exact hwmon w hw he)
        rw [hp, Option.some_inj] at heq
        intro m
        have hm := hpr m
        rw [heq] at hm
        rw [regLookup_regResetAll] at hm
        exact hm
      · rw [if_neg hA, Option.some_inj] at heq
        have h1 : regResetAll run.taskbars TASKBARSTATE.Normal = regs1 :=
          congrArg Prod.fst heq
        intro m
        rw [← h1, regLookup_regResetAll]
    split
    · rename_i heq2
      exfalso
      by_cases hB : (cfg.dynamic_start && sv) = true
      · rw [if_pos hB] at heq2
        have hl : (regLookup regs1 sm).isSome = true := by rw [hpr1]; exact hstart hB
        cases hq : regLookup regs1 sm with
        | none => rw [hq] at hl; exact absurd hl (by simp)
        | some entry => rw [hq] at heq2; exact Option.noConfusion heq2
      · rw [if_neg hB] at heq2
        exact Option.noConfusion heq2
    · rfl

/-- Witness for the amended C6 at a concrete pass input with all monitors
registered. -/
theorem pass_completes_when_monitors_present_witness :
    (fullClassificationPass
      { taskbar_appearance := ACCENT.enableBlurbehind, taskbar_color := 0,
        dynamic_ws := true, dynamic_appearance := ACCENT.enableBlurbehind,
        dynamic_color := 0, dynamic_start := false, dynamic_normal_on_peek := false,
        peek := PEEKMODE.Disabled }
      (fun _ => false)
      [⟨50, 0, true, true, false, true⟩]
      false 0
      ⟨100, [⟨0, 100, TASKBARSTATE.Normal⟩], false, false⟩
      (initPeekCache 100) (fun _ => none)).isSome = true :=
  pass_completes_when_monitors_present _ _ _ _ _ _ _ _
    (by intro w hw he; simp at hw; subst hw; rfl)
    (by intro h; exact absurd h (by decide))

/-! ## Clean shutdown (`wWinMain`, main.cpp lines 822–836) -/

/-- `Tray::EXITREASON` as used by main.cpp (`UserAction`, `UserActionNoSave`,
`NewInstance`; the tray header itself is external). -/
inductive EXITREASON
  | UserAction
  | UserActionNoSave
  | NewInstance
  deriving DecidableEq, Repr

/-- The shutdown tail of `wWinMain`: unless the exit reason is `NewInstance`,
`TogglePeek(true)` runs and then `SetWindowBlur(hwnd, ACCENT_NORMAL, NULL)` is
applied to every registry entry (configuration saving is outside the model).
Returns the final peek cache, the final `is_normal` memo, and the emitted
events. -/
def shutdownPass (reason : EXITREASON) (mainTaskbar : Nat) (regs : List TaskbarEntry)
    (pc : PeekCache) (memo : Nat → Option Bool) :
    PeekCache × (Nat → Option Bool) × List PeekEvent × List Event :=
  if reason = EXITREASON.NewInstance then
    (pc, memo, [], [])
  else
    ((togglePeek pc mainTaskbar true).1,
     (applySeq memo (regs.map (fun e => (e.hwnd, ACCENT.normal, 0)))).1,
     (togglePeek pc mainTaskbar true).2,
     (applySeq memo (regs.map (fun e => (e.hwnd, ACCENT.normal, 0)))).2)

theorem lastApplied_map_normal_cases (hwnd : Nat) :
    ∀ regs : List TaskbarEntry,
      lastApplied hwnd (regs.map (fun e => (e.hwnd, ACCENT.normal, 0))) = none ∨
      lastApplied hwnd (regs.map (fun e => (e.hwnd, ACCENT.normal, 0))) = some ACCENT.normal
  | [] => Or.inl rfl
  | e :: rest => by
      simp only [List.map_cons, lastApplied]
      rcases lastApplied_map_normal_cases hwnd rest with hr | hr <;> rw [hr]
      · by_cases hw : e.hwnd = hwnd
        · refine Or.inr ?_
          show (if e.hwnd = hwnd then some ACCENT.normal else none) = some ACCENT.normal
          rw [if_pos hw]
        · refine Or.inl ?_
          show (if e.hwnd = hwnd then some ACCENT.normal else none) = none
          rw [if_neg hw]
      · exact Or.inr rfl

theorem lastApplied_map_normal (hwnd : Nat) (regs : List TaskbarEntry)
    (h : hwnd ∈ regs.map TaskbarEntry.hwnd) :
    lastApplied hwnd (regs.map (fun e => (e.hwnd, ACCENT.normal, 0)))
      = some ACCENT.normal := by
  induction regs with
  | nil => simp at h
  | cons e rest ih =>
      simp only [List.map_cons, lastApplied]
      rcases lastApplied_map_normal_cases hwnd rest with hr | hr
      · rw [hr]
        by_cases hw : e.hwnd = hwnd
        · show (if e.hwnd = hwnd then some ACCENT.normal else none) = some ACCENT.normal
          rw [if_pos hw]
        · have hmem : hwnd ∈ rest.map TaskbarEntry.hwnd := by
            simp only [List.map_cons, List.mem_cons] at h
            rcases h with h | h
            · exact absurd h.symm hw
            · exact h
          rw [ih hmem] at hr
          exact Option.noConfusion hr
      · rw [hr]

/-- Claim C9: on shutdown with an exit reason other than `NewInstance`
(`SupersededByNewInstance`), the peek button ends visible and the Normal accent
is applied to every registered taskbar (each taskbar's `is_normal` memo ends
`some true`); with `NewInstance` neither action is performed and nothing is
emitted. -/
theorem shutdown_restores_defaults (reason : EXITREASON) (main : Nat)
    (regs : List TaskbarEntry) (pc : PeekCache) (memo : Nat → Option Bool) :
    (reason ≠ EXITREASON.NewInstance →
      (shutdownPass reason main regs pc memo).1.cachedPeek = true ∧
      ∀ e ∈ regs, (shutdownPass reason main regs pc memo).2.1 e.hwnd = some true) ∧
    (reason = EXITREASON.NewInstance →
      shutdownPass reason main regs pc memo = (pc, memo, [], [])) := by
  constructor
  · intro hne
    unfold shutdownPass
    rw [if_neg hne]
    constructor
    · unfold togglePeek
      by_cases h : (true ≠ pc.cachedPeek ∨ pc.cachedTaskbar ≠ main)
      · rw [if_pos h]
      · rw [if_neg h]
        push_neg at h
        exact h.1.symm
    · intro e he
      show (applySeq memo (regs.map (fun e => (e.hwnd, ACCENT.normal, 0)))).1 e.hwnd = some true
      rw [applySeq_memo]
      rw [lastApplied_map_normal e.hwnd regs (List.mem_map.mpr ⟨e, he, rfl⟩)]
      rfl
  · intro he
    unfold shutdownPass
    rw [if_pos he]

/-- Witness for C9 at a concrete shutdown state (reason `UserAction`, one
taskbar, peek cached hidden). -/
theorem shutdown_restores_defaults_witness :
    (EXITREASON.UserAction ≠ EXITREASON.NewInstance →
      (shutdownPass EXITREASON.UserAction 100 [⟨0, 100, TASKBARSTATE.Normal⟩] ⟨false, 100⟩
          (fun _ => none)).1.cachedPeek = true ∧
      ∀ e ∈ [(⟨0, 100, TASKBARSTATE.Normal⟩ : TaskbarEntry)],
        (shutdownPass EXITREASON.UserAction 100 [⟨0, 100, TASKBARSTATE.Normal⟩] ⟨false, 100⟩
          (fun _ => none)).2.1 e.hwnd = some true) ∧
    (EXITREASON.UserAction = EXITREASON.NewInstance →
      shutdownPass EXITREASON.UserAction 100 [⟨0, 100, TASKBARSTATE.Normal⟩] ⟨false, 100⟩
          (fun _ => none) = (⟨false, 100⟩, (fun _ => none), [], [])) :=
  shutdown_restores_defaults EXITREASON.UserAction 100 [⟨0, 100, TASKBARSTATE.Normal⟩]
    ⟨false, 100⟩ (fun _ => none)

end TTB
